import Mathlib

/-!
Verification of the integrity-verified artifact acquisition pipeline of the
`rebox` repository (`src/util.rs`, `src/main.rs`).

The embedding models:
* file contents as lists of bytes (`Content`);
* the SHA-256 digest primitive (an external crate, not repository code) as an
  abstract function `digest : Content → List Nat` returning the 32 digest
  bytes; the repository's `sha256` routine renders it with `format!("{:x}")`,
  modelled exactly by `bytesToHex`;
* the externally observable world of one `sha256_or_download` invocation as a
  record `World`: the destination file (`dest`), the bytes the server returns
  for a GET on the URL (`netBody`), the Content-Length answered to a HEAD
  probe (`netLen`), whether and how the GET fails (`getErr`, with `getWritten`
  the bytes it wrote before giving up — a non-2xx status caught by
  `error_for_status` writes none, a transport interruption during `copy_to`
  a prefix), request counters, a durability flag and the log streams.
  Filesystem operations are modelled as succeeding.

Functions keep the source names (`download_progress`, `sha256_or_download`).
-/

/-- A file or network payload: its sequence of bytes (each `< 256`). -/
abbrev Content := List Nat

/-- Lowercase hex digit for `n < 16`, as produced by Rust `{:x}` formatting. -/
def hexDigitChar (n : Nat) : Char :=
  if n < 10 then Char.ofNat (48 + n) else Char.ofNat (87 + n)

/-- One byte rendered as two lowercase hex digits (`%02x`). -/
def byteToHex (b : Nat) : List Char :=
  [hexDigitChar (b / 16 % 16), hexDigitChar (b % 16)]

/-- `format!("{:x}", hasher.finalize())` from `util.rs::sha256`: the digest
bytes rendered as a lowercase hex string, two digits per byte. -/
def bytesToHex (bs : List Nat) : String :=
  ⟨(bs.map byteToHex).flatten⟩

deriving instance DecidableEq for Except

/-- Rust `{:?}` debug rendering of a string or path, as used by the log
messages in `sha256_or_download` (quotes around the text). -/
def quoteStr (s : String) : String :=
  "\"" ++ s ++ "\""

/-- The warning logged by `sha256_or_download` when a pre-existing file's
hash differs from the expected one (`util.rs` line 123). -/
def previousFileWarning (path computed expected : String) : String :=
  "previous file at " ++ quoteStr path ++ " has hash " ++ quoteStr computed
    ++ " instead of " ++ quoteStr expected

/-- The error message built by `sha256_or_download` when the freshly
downloaded file's hash differs from the expected one (`util.rs` line 136). -/
def downloadMismatchMessage (url path computed expected : String) : String :=
  "downloaded file from " ++ quoteStr url ++ " to " ++ quoteStr path
    ++ " has hash " ++ quoteStr computed ++ " instead of " ++ quoteStr expected

/-- The error `download_progress` raises when the HEAD probe yields no
Content-Length (`util.rs` line 31). -/
def contentLengthError : String := "ContentLength not found"

/-- The externally observable state touched by one `sha256_or_download`
invocation on a fixed `(url, path)` pair. -/
structure World where
  /-- Content of the file at the destination path; `none` when absent. -/
  dest : Option Content
  /-- Body the server returns for a GET of the URL. -/
  netBody : Content
  /-- Content-Length the server answers to a HEAD probe, when present. -/
  netLen : Option Nat
  /-- When `some e`, the GET of the URL fails with error `e` — a non-2xx
  status rejected by `error_for_status`, or a transport interruption during
  `copy_to` — after `getWritten` bytes reached the sink; when `none`, the
  GET delivers `netBody` whole. -/
  getErr : Option String
  /-- The bytes a failing GET wrote to the sink before giving up (empty when
  it was rejected before any copying). -/
  getWritten : Content
  /-- Number of HEAD probes issued so far. -/
  headCount : Nat
  /-- Number of GET body fetches issued so far. -/
  fetchCount : Nat
  /-- Whether the current destination content has been forced to durable
  storage (`File::sync_all`). -/
  synced : Bool
  /-- Warnings logged (`log::warn!`), oldest first. -/
  warnings : List String
  /-- Errors logged (`log::error!`), oldest first. -/
  errors : List String
deriving Repr, DecidableEq

/-- Result of a pipeline operation: the Rust `Result` together with the world
it leaves behind. -/
structure RunResult where
  result : Except String Unit
  world : World
deriving Repr, DecidableEq

/-- `util.rs::download_progress`: issues a HEAD probe (`download_length`);
fails with `contentLengthError` when no Content-Length is present — before
any file is created; otherwise `File::create`s the destination, issues the
GET and streams its body into the file, `sync_all`s the file and returns
the GET's outcome.  Note the body is written directly to the given path —
there is no staging file — and a failing GET returns its error with the
bytes it already wrote left in the file (`File::create` precedes the GET
and no cleanup follows the error). -/
def download_progress (w : World) : RunResult :=
  let w1 := { w with headCount := w.headCount + 1 }
  match w1.netLen with
  | none => { result := .error contentLengthError, world := w1 }
  | some _ =>
    match w1.getErr with
    | some e =>
      { result := .error e
        world := { w1 with
          dest := some w1.getWritten
          fetchCount := w1.fetchCount + 1
          synced := true } }
    | none =>
      { result := .ok ()
        world := { w1 with
          dest := some w1.netBody
          fetchCount := w1.fetchCount + 1
          synced := true } }

/-- The download-then-verify tail of `sha256_or_download` (`util.rs` lines
129–141): download to the destination path, rehash it, succeed on a match,
otherwise log an error, delete the file and fail with the mismatch message. -/
def downloadAndVerify (digest : Content → List Nat) (url path sha256 : String)
    (w : World) : RunResult :=
  let r := download_progress w
  match r.result with
  | .error e => { result := .error e, world := r.world }
  | .ok () =>
    match r.world.dest with
    | none =>
      -- unreachable: a successful download always leaves the file in place
      { result := .error "No such file or directory", world := r.world }
    | some c =>
      let path_sha256 := bytesToHex (digest c)
      if path_sha256 = sha256 then
        { result := .ok (), world := r.world }
      else
        let msg := downloadMismatchMessage url path path_sha256 sha256
        { result := .error msg
          world := { r.world with
            dest := none
            errors := r.world.errors ++ [msg] } }

/-- `util.rs::sha256_or_download`: if the destination exists, hash it and
return success on a match (exact string comparison against the lowercase hex
digest); on a mismatch log a warning, delete the file and fall through to the
download-then-verify tail; if the destination is absent go straight to it. -/
def sha256_or_download (digest : Content → List Nat) (url path sha256 : String)
    (w : World) : RunResult :=
  match w.dest with
  | some content =>
    let path_sha256 := bytesToHex (digest content)
    if path_sha256 = sha256 then
      { result := .ok (), world := w }
    else
      let w1 := { w with
        warnings := w.warnings ++ [previousFileWarning path path_sha256 sha256]
        dest := none }
      downloadAndVerify digest url path sha256 w1
  | none => downloadAndVerify digest url path sha256 w

/-- The successive externally observable states of the destination file
during the download tail: after `File::create` the destination exists empty;
a failing GET leaves the bytes it wrote; a completed body is rehashed and
removed when the rehash mismatches.  (When the HEAD probe fails no file is
touched.) -/
def downloadDestTrace (digest : Content → List Nat) (sha256 : String)
    (w : World) : List (Option Content) :=
  match w.netLen with
  | none => []
  | some _ =>
    some [] ::
      match w.getErr with
      | some _ => [some w.getWritten]
      | none =>
        some w.netBody ::
          (if bytesToHex (digest w.netBody) = sha256 then [] else [none])

/-- The successive externally observable states of the destination file over
one whole `sha256_or_download` call, starting from the initial state: on a
pre-existing mismatch the file is first removed, then the download tail runs
directly against the destination path. -/
def sodDestTrace (digest : Content → List Nat) (sha256 : String)
    (w : World) : List (Option Content) :=
  w.dest ::
    match w.dest with
    | some content =>
      if bytesToHex (digest content) = sha256 then []
      else none :: downloadDestTrace digest sha256 { w with dest := none }
    | none => downloadDestTrace digest sha256 w

/-- The observation the spec's invariant allows: destination absent, or
present with content whose digest renders to the expected hash. -/
def destObservationOk (digest : Content → List Nat) (sha256 : String) :
    Option Content → Bool
  | none => true
  | some c => bytesToHex (digest c) == sha256

/-! ## Manifest scanning (`main.rs` lines 22–31)

A manifest line is its sequence of bytes; since every byte offset the code
slices at must fall on a character boundary for the slice not to panic, and
the real manifests are ASCII, a line is modelled as a `List Char` indexed by
byte offset.  `&line[..64]` panics when `64` exceeds the line length, and
`&line[66..]` panics when `66` does; a panic is modelled as `Except.error`
carrying the panic message. -/

/-- `let sha256 = &line[..64]; let name = &line[66..];` from `main.rs`:
fixed-offset slicing of one manifest line, with Rust's slice panics made
explicit. -/
def parseLine (line : List Char) : Except String (List Char × List Char) :=
  if 64 ≤ line.length then
    if 66 ≤ line.length then
      .ok (line.take 64, line.drop 66)
    else
      .error "byte index 66 is out of bounds"
  else
    .error "byte index 64 is out of bounds"

/-- `name.starts_with("redox_demo_x86_64_") && name.ends_with("_harddrive.img.zst")`. -/
def demoImageName (name : List Char) : Bool :=
  "redox_demo_x86_64_".data.isPrefixOf name
    && "_harddrive.img.zst".data.isSuffixOf name

/-- The `for line in shasum.lines()` loop of `main.rs`: each line is sliced at
the fixed offsets, and whenever the name matches the demo-image pattern the
accumulator is overwritten with `(name, sha256)`; a slice panic aborts the
whole scan. -/
def scanManifest (lines : List (List Char))
    (acc : Option (List Char × List Char)) :
    Except String (Option (List Char × List Char)) :=
  match lines with
  | [] => .ok acc
  | line :: rest =>
    match parseLine line with
    | .error e => .error e
    | .ok (sha, name) =>
      scanManifest rest (if demoImageName name then some (name, sha) else acc)

/-- Outcome of the manifest lookup in `main`: a slice panic, the
`ok_or("demo harddrive image not found")?` failure, or the selected
`(image_name, image_sha256)` pair. -/
inductive ScanOutcome where
  | panicked (msg : String)
  | failed (msg : String)
  | found (name sha : List Char)
deriving Repr, DecidableEq

/-- The manifest lookup of `main.rs`: scan every line starting from
`image_opt = None`, then `image_opt.ok_or("demo harddrive image not found")?`. -/
def selectDemoImage (lines : List (List Char)) : ScanOutcome :=
  match scanManifest lines none with
  | .error e => .panicked e
  | .ok none => .failed "demo harddrive image not found"
  | .ok (some (name, sha)) => .found name sha

/-! ## Helper lemmas -/

/-- The sixteen characters a lowercase hex rendering can produce. -/
def hexChars : List Char := "0123456789abcdef".data

theorem hexDigitChar_mem_hexChars (n : Nat) (h : n < 16) :
    hexDigitChar n ∈ hexChars := by
  interval_cases n <;> decide

theorem bytesToHex_data_mem (bs : List Nat) :
    ∀ c ∈ (bytesToHex bs).data, c ∈ hexChars := by
  induction bs with
  | nil => simp [bytesToHex]
  | cons b t ih =>
    intro c hc
    simp only [bytesToHex, List.map_cons, List.flatten_cons] at hc
    rcases List.mem_append.mp hc with h | h
    · simp only [byteToHex, List.mem_cons, List.not_mem_nil, or_false] at h
      rcases h with h | h <;> subst h <;>
        exact hexDigitChar_mem_hexChars _ (Nat.mod_lt _ (by norm_num))
    · exact ih c h

theorem bytesToHex_length (bs : List Nat) :
    (bytesToHex bs).length = 2 * bs.length := by
  induction bs with
  | nil => rfl
  | cons b t ih =>
    simp only [bytesToHex, String.length, List.map_cons, List.flatten_cons,
      List.length_append, byteToHex, List.length_cons, List.length_nil] at *
    omega

theorem stringAppend_data (s t : String) : (s ++ t).data = s.data ++ t.data := by
  cases s; cases t; rfl

theorem stringAppend_assoc (a b c : String) : a ++ b ++ c = a ++ (b ++ c) := by
  cases a; cases b; cases c
  show String.mk _ = String.mk _
  exact congrArg String.mk (List.append_assoc ..)

/-- A string interpolated in `{:?}` form anywhere inside a message occurs in
that message. -/
theorem quote_infix (x y s : String) : s.data <:+: (x ++ quoteStr s ++ y).data := by
  refine ⟨x.data ++ [Char.ofNat 34], Char.ofNat 34 :: y.data, ?_⟩
  simp [stringAppend_data, quoteStr]

theorem downloadAndVerify_no_length (digest : Content → List Nat)
    (url path h : String) (w : World) (hL : w.netLen = none) :
    downloadAndVerify digest url path h w =
      ⟨.error contentLengthError, { w with headCount := w.headCount + 1 }⟩ := by
  cases w
  subst hL
  rfl

theorem downloadAndVerify_getFail (digest : Content → List Nat)
    (url path h : String) (w : World) (L : Nat) (e : String)
    (hL : w.netLen = some L) (hE : w.getErr = some e) :
    downloadAndVerify digest url path h w =
      ⟨.error e, { w with
        headCount := w.headCount + 1
        dest := some w.getWritten
        fetchCount := w.fetchCount + 1
        synced := true }⟩ := by
  cases w
  subst hL
  subst hE
  rfl

theorem downloadAndVerify_match (digest : Content → List Nat)
    (url path h : String) (w : World) (L : Nat) (hL : w.netLen = some L)
    (hE : w.getErr = none)
    (hb : bytesToHex (digest w.netBody) = h) :
    downloadAndVerify digest url path h w =
      ⟨.ok (), { w with
        headCount := w.headCount + 1
        dest := some w.netBody
        fetchCount := w.fetchCount + 1
        synced := true }⟩ := by
  cases w
  subst hL
  subst hE
  simp only [downloadAndVerify, download_progress] at hb ⊢
  rw [if_pos hb]

theorem downloadAndVerify_mismatch (digest : Content → List Nat)
    (url path h : String) (w : World) (L : Nat) (hL : w.netLen = some L)
    (hE : w.getErr = none)
    (hb : bytesToHex (digest w.netBody) ≠ h) :
    downloadAndVerify digest url path h w =
      ⟨.error (downloadMismatchMessage url path (bytesToHex (digest w.netBody)) h),
        { w with
          headCount := w.headCount + 1
          dest := none
          fetchCount := w.fetchCount + 1
          synced := true
          errors := w.errors
            ++ [downloadMismatchMessage url path (bytesToHex (digest w.netBody)) h] }⟩ := by
  cases w
  subst hL
  subst hE
  simp only [downloadAndVerify, download_progress] at hb ⊢
  rw [if_neg hb]

theorem sha256_or_download_cached_ok (digest : Content → List Nat)
    (url path h : String) (w : World) (c : Content) (hc : w.dest = some c)
    (hb : bytesToHex (digest c) = h) :
    sha256_or_download digest url path h w = ⟨.ok (), w⟩ := by
  cases w
  cases hc
  simp only [sha256_or_download] at hb ⊢
  rw [if_pos hb]

theorem sha256_or_download_cached_mismatch (digest : Content → List Nat)
    (url path h : String) (w : World) (c : Content) (hc : w.dest = some c)
    (hb : bytesToHex (digest c) ≠ h) :
    sha256_or_download digest url path h w =
      downloadAndVerify digest url path h
        { w with
          warnings := w.warnings ++ [previousFileWarning path (bytesToHex (digest c)) h]
          dest := none } := by
  cases w
  cases hc
  simp only [sha256_or_download] at hb ⊢
  rw [if_neg hb]

theorem sha256_or_download_absent (digest : Content → List Nat)
    (url path h : String) (w : World) (hc : w.dest = none) :
    sha256_or_download digest url path h w = downloadAndVerify digest url path h w := by
  cases w
  cases hc
  rfl

theorem infix_append_left (l₁ l₂ pre : List Char) (h : l₁ <:+: l₂) :
    l₁ <:+: pre ++ l₂ := by
  obtain ⟨s, t, rfl⟩ := h
  exact ⟨pre ++ s, t, by simp⟩

theorem infix_append_right (l₁ l₂ post : List Char) (h : l₁ <:+: l₂) :
    l₁ <:+: l₂ ++ post := by
  obtain ⟨s, t, rfl⟩ := h
  exact ⟨s, t ++ post, by simp⟩

theorem quoteStr_infix_self (s : String) : s.data <:+: (quoteStr s).data :=
  ⟨[Char.ofNat 34], [Char.ofNat 34], by simp [quoteStr, stringAppend_data]⟩

theorem previousFileWarning_carries_computed (path computed expected : String) :
    computed.data <:+: (previousFileWarning path computed expected).data := by
  simp only [previousFileWarning, stringAppend_data]
  exact infix_append_right _ _ _ (infix_append_right _ _ _
    (infix_append_left _ _ _ (quoteStr_infix_self computed)))

theorem downloadMismatchMessage_carries (url path computed expected : String) :
    url.data <:+: (downloadMismatchMessage url path computed expected).data ∧
    computed.data <:+: (downloadMismatchMessage url path computed expected).data ∧
    expected.data <:+: (downloadMismatchMessage url path computed expected).data := by
  simp only [downloadMismatchMessage, stringAppend_data]
  refine ⟨?_, ?_, ?_⟩
  · exact infix_append_right _ _ _ (infix_append_right _ _ _
      (infix_append_right _ _ _ (infix_append_right _ _ _ (infix_append_right _ _ _
        (infix_append_right _ _ _
          (infix_append_left _ _ _ (quoteStr_infix_self url)))))))
  · exact infix_append_right _ _ _ (infix_append_right _ _ _
      (infix_append_left _ _ _ (quoteStr_infix_self computed)))
  · exact infix_append_left _ _ _ (quoteStr_infix_self expected)

/-! ## Concrete instances used in witnesses and counterexamples -/

/-- A concrete stand-in for the abstract digest primitive: 32 bytes
determined by the content length, so distinct small contents get distinct
digests. -/
def digestLen : Content → List Nat :=
  fun c => (c.length % 256) :: List.replicate 31 0

/-- The hex rendering of `digestLen [1]`. -/
def hash1 : String := bytesToHex (digestLen [1])

/-- A world with no cached file where the server offers one byte with a
declared length and a GET that completes. -/
def w0 : World :=
  { dest := none, netBody := [1], netLen := some 1, getErr := none
    getWritten := [], headCount := 0, fetchCount := 0, synced := false
    warnings := [], errors := [] }

/-- A world already holding a file of content `[1]`, with no usable server. -/
def wCached : World :=
  { dest := some [1], netBody := [], netLen := none, getErr := none
    getWritten := [], headCount := 0, fetchCount := 0, synced := false
    warnings := [], errors := [] }

/-! ## Claims -/

/-- C7: `download_progress` requires a known content length: when the HEAD
probe (`download_length`) yields no Content-Length it fails with the
`ContentLength not found` error, touching no file and fetching no body;
when a length is present (and the GET delivers) it streams the GET body
into the destination file and forces the file's contents to durable storage
(`sync_all`) before returning. -/
theorem download_progress_requires_length (w : World) :
    (w.netLen = none →
      download_progress w =
        ⟨.error contentLengthError, { w with headCount := w.headCount + 1 }⟩) ∧
    (∀ L, w.netLen = some L → w.getErr = none →
      download_progress w =
        ⟨.ok (), { w with
          headCount := w.headCount + 1
          dest := some w.netBody
          fetchCount := w.fetchCount + 1
          synced := true }⟩) := by
  constructor
  · intro hL; cases w; subst hL; rfl
  · intro L hL hE; cases w; subst hL; subst hE; rfl

/-- Witness for C7 at two concrete worlds. -/
theorem download_progress_requires_length_witness :
    download_progress wCached =
      ⟨.error contentLengthError, { wCached with headCount := 1 }⟩ ∧
    download_progress w0 =
      ⟨.ok (), { w0 with
        headCount := 1, dest := some [1], fetchCount := 1, synced := true }⟩ :=
  ⟨(download_progress_requires_length wCached).1 rfl,
   (download_progress_requires_length w0).2 1 rfl rfl⟩

/-- C2: `sha256_or_download` is idempotent with respect to network traffic:
when the destination already holds content whose digest renders to the
expected hash, the call returns success immediately, changing nothing and
fetching nothing; hence two successive calls starting from an absent
destination (no intervening tampering, server body correct and delivered
whole) perform exactly one body fetch in total — the second call is a pure
no-op. -/
theorem sha256_or_download_idempotent (digest : Content → List Nat)
    (url path h : String) (w : World) :
    ((∃ c, w.dest = some c ∧ bytesToHex (digest c) = h) →
      sha256_or_download digest url path h w = ⟨.ok (), w⟩) ∧
    (w.dest = none → ∀ L, w.netLen = some L → w.getErr = none →
      bytesToHex (digest w.netBody) = h →
      (sha256_or_download digest url path h w).result = .ok () ∧
      (sha256_or_download digest url path h w).world.fetchCount = w.fetchCount + 1 ∧
      sha256_or_download digest url path h (sha256_or_download digest url path h w).world
        = ⟨.ok (), (sha256_or_download digest url path h w).world⟩) := by
  constructor
  · rintro ⟨c, hc, hb⟩
    exact sha256_or_download_cached_ok digest url path h w c hc hb
  · intro hd L hL hE hb
    rw [sha256_or_download_absent digest url path h w hd,
      downloadAndVerify_match digest url path h w L hL hE hb]
    exact ⟨rfl, rfl,
      sha256_or_download_cached_ok digest url path h _ w.netBody rfl hb⟩

theorem downloadAndVerify_warnings (digest : Content → List Nat)
    (url path h : String) (w : World) :
    (downloadAndVerify digest url path h w).world.warnings = w.warnings := by
  cases hL : w.netLen with
  | none => rw [downloadAndVerify_no_length _ _ _ _ _ hL]
  | some L =>
    cases hE : w.getErr with
    | some e => rw [downloadAndVerify_getFail _ _ _ _ _ L e hL hE]
    | none =>
      by_cases hb : bytesToHex (digest w.netBody) = h
      · rw [downloadAndVerify_match _ _ _ _ _ L hL hE hb]
      · rw [downloadAndVerify_mismatch _ _ _ _ _ L hL hE hb]

theorem downloadAndVerify_ok_matches (digest : Content → List Nat)
    (url path h : String) (w : World) :
    (downloadAndVerify digest url path h w).result = .ok () →
      ∃ c, (downloadAndVerify digest url path h w).world.dest = some c ∧
        bytesToHex (digest c) = h := by
  cases hL : w.netLen with
  | none =>
    rw [downloadAndVerify_no_length _ _ _ _ _ hL]
    exact fun hk => Except.noConfusion hk
  | some L =>
    cases hE : w.getErr with
    | some e =>
      rw [downloadAndVerify_getFail _ _ _ _ _ L e hL hE]
      exact fun hk => Except.noConfusion hk
    | none =>
      by_cases hb : bytesToHex (digest w.netBody) = h
      · rw [downloadAndVerify_match _ _ _ _ _ L hL hE hb]
        exact fun _ => ⟨w.netBody, rfl, hb⟩
      · rw [downloadAndVerify_mismatch _ _ _ _ _ L hL hE hb]
        exact fun hk => Except.noConfusion hk

theorem downloadAndVerify_never_match (digest : Content → List Nat)
    (url path h : String) (w : World)
    (hnb : bytesToHex (digest w.netBody) ≠ h) :
    (downloadAndVerify digest url path h w).result ≠ .ok () ∧
    (∀ L, w.netLen = some L →
      (downloadAndVerify digest url path h w).world.fetchCount = w.fetchCount + 1) := by
  cases hL : w.netLen with
  | none =>
    rw [downloadAndVerify_no_length _ _ _ _ _ hL]
    exact ⟨fun hk => Except.noConfusion hk, fun L hL' => Option.noConfusion hL'⟩
  | some L0 =>
    cases hE : w.getErr with
    | some e =>
      rw [downloadAndVerify_getFail _ _ _ _ _ L0 e hL hE]
      exact ⟨fun hk => Except.noConfusion hk, fun L hL' => rfl⟩
    | none =>
      rw [downloadAndVerify_mismatch _ _ _ _ _ L0 hL hE hnb]
      exact ⟨fun hk => Except.noConfusion hk, fun L hL' => rfl⟩

/-- Witness for C2: a cached-and-correct world is untouched with zero
fetches; from an absent destination, two successive calls fetch once. -/
theorem sha256_or_download_idempotent_witness :
    sha256_or_download digestLen "u" "p" hash1 wCached = ⟨.ok (), wCached⟩ ∧
    ((sha256_or_download digestLen "u" "p" hash1 w0).result = .ok () ∧
      (sha256_or_download digestLen "u" "p" hash1 w0).world.fetchCount = 0 + 1 ∧
      sha256_or_download digestLen "u" "p" hash1
          (sha256_or_download digestLen "u" "p" hash1 w0).world
        = ⟨.ok (), (sha256_or_download digestLen "u" "p" hash1 w0).world⟩) :=
  ⟨(sha256_or_download_idempotent digestLen "u" "p" hash1 wCached).1
      ⟨[1], rfl, rfl⟩,
   (sha256_or_download_idempotent digestLen "u" "p" hash1 w0).2 rfl 1 rfl rfl rfl⟩

/-- C3: self-healing: starting from a destination whose content's digest
does not render to the expected hash, with a server whose body does, a
single call logs the warning (which names the mismatched hash), performs
exactly one body fetch, succeeds and leaves the destination holding the
correctly-hashing fetched content. -/
theorem sha256_or_download_self_healing (digest : Content → List Nat)
    (url path h : String) (w : World) (c : Content) (L : Nat)
    (hc : w.dest = some c) (hne : bytesToHex (digest c) ≠ h)
    (hL : w.netLen = some L) (hE : w.getErr = none)
    (hb : bytesToHex (digest w.netBody) = h) :
    (sha256_or_download digest url path h w).result = .ok () ∧
    (sha256_or_download digest url path h w).world.dest = some w.netBody ∧
    bytesToHex (digest w.netBody) = h ∧
    (sha256_or_download digest url path h w).world.fetchCount = w.fetchCount + 1 ∧
    (sha256_or_download digest url path h w).world.warnings =
      w.warnings ++ [previousFileWarning path (bytesToHex (digest c)) h] ∧
    (bytesToHex (digest c)).data <:+:
      (previousFileWarning path (bytesToHex (digest c)) h).data := by
  rw [sha256_or_download_cached_mismatch digest url path h w c hc hne,
    downloadAndVerify_match digest url path h
      { w with
        warnings := w.warnings ++ [previousFileWarning path (bytesToHex (digest c)) h]
        dest := none } L hL hE hb]
  exact ⟨rfl, rfl, hb, rfl, rfl,
    previousFileWarning_carries_computed path (bytesToHex (digest c)) h⟩

/-- Witness for C3: a cached file of content `[]` healed into the served
body `[1]` by one fetch. -/
theorem sha256_or_download_self_healing_witness :
    (sha256_or_download digestLen "u" "p" hash1 { w0 with dest := some [] }).result
        = .ok () ∧
    (sha256_or_download digestLen "u" "p" hash1
        { w0 with dest := some [] }).world.dest = some [1] ∧
    bytesToHex (digestLen [1]) = hash1 ∧
    (sha256_or_download digestLen "u" "p" hash1
        { w0 with dest := some [] }).world.fetchCount = 0 + 1 ∧
    (sha256_or_download digestLen "u" "p" hash1
        { w0 with dest := some [] }).world.warnings =
      [] ++ [previousFileWarning "p" (bytesToHex (digestLen [])) hash1] ∧
    (bytesToHex (digestLen [])).data <:+:
      (previousFileWarning "p" (bytesToHex (digestLen [])) hash1).data :=
  sha256_or_download_self_healing digestLen "u" "p" hash1
    { w0 with dest := some [] } [] 1 rfl (by decide) rfl rfl rfl

/-- C4: when the freshly fetched body's digest does not render to the
expected hash, the call deletes the fetched file (the destination does not
exist afterwards), fails with the mismatch message — which carries the
expected digest, the actual digest and the source URL — and performs exactly
one fetch-verify cycle: the fetch counter grows by exactly one. -/
theorem sha256_or_download_fetch_mismatch (digest : Content → List Nat)
    (url path h : String) (w : World) (L : Nat)
    (hd : w.dest = none ∨ ∃ c, w.dest = some c ∧ bytesToHex (digest c) ≠ h)
    (hL : w.netLen = some L) (hE : w.getErr = none)
    (hb : bytesToHex (digest w.netBody) ≠ h) :
    (sha256_or_download digest url path h w).result =
      .error (downloadMismatchMessage url path (bytesToHex (digest w.netBody)) h) ∧
    (sha256_or_download digest url path h w).world.dest = none ∧
    (sha256_or_download digest url path h w).world.fetchCount = w.fetchCount + 1 ∧
    h.data <:+:
      (downloadMismatchMessage url path (bytesToHex (digest w.netBody)) h).data ∧
    (bytesToHex (digest w.netBody)).data <:+:
      (downloadMismatchMessage url path (bytesToHex (digest w.netBody)) h).data ∧
    url.data <:+:
      (downloadMismatchMessage url path (bytesToHex (digest w.netBody)) h).data := by
  have hcar := downloadMismatchMessage_carries url path (bytesToHex (digest w.netBody)) h
  rcases hd with hd | ⟨c, hc, hcne⟩
  · rw [sha256_or_download_absent digest url path h w hd,
      downloadAndVerify_mismatch digest url path h w L hL hE hb]
    exact ⟨rfl, rfl, rfl, hcar.2.2, hcar.2.1, hcar.1⟩
  · rw [sha256_or_download_cached_mismatch digest url path h w c hc hcne,
      downloadAndVerify_mismatch digest url path h
        { w with
          warnings := w.warnings ++ [previousFileWarning path (bytesToHex (digest c)) h]
          dest := none } L hL hE hb]
    exact ⟨rfl, rfl, rfl, hcar.2.2, hcar.2.1, hcar.1⟩

/-- Witness for C4: the server body `[]` hashes differently from the
expected hash of `[1]`; the call errors and removes the destination. -/
theorem sha256_or_download_fetch_mismatch_witness :
    (sha256_or_download digestLen "u" "p" hash1 { w0 with netBody := [] }).result =
      .error (downloadMismatchMessage "u" "p" (bytesToHex (digestLen [])) hash1) ∧
    (sha256_or_download digestLen "u" "p" hash1
        { w0 with netBody := [] }).world.dest = none ∧
    (sha256_or_download digestLen "u" "p" hash1
        { w0 with netBody := [] }).world.fetchCount = 0 + 1 ∧
    hash1.data <:+:
      (downloadMismatchMessage "u" "p" (bytesToHex (digestLen [])) hash1).data ∧
    (bytesToHex (digestLen [])).data <:+:
      (downloadMismatchMessage "u" "p" (bytesToHex (digestLen [])) hash1).data ∧
    "u".data <:+:
      (downloadMismatchMessage "u" "p" (bytesToHex (digestLen [])) hash1).data :=
  sha256_or_download_fetch_mismatch digestLen "u" "p" hash1
    { w0 with netBody := [] } 1 (Or.inl rfl) rfl rfl (by decide)

/-- C1 counterexample: with the destination absent and a served body `[1]`
whose digest renders to the expected hash, the run's observable destination
states include the empty file right after `File::create` — whose digest does
not match.  The every-instant invariant (and with it the claimed
staging-then-atomic-rename mechanism) fails on the code, which downloads
directly to the destination path. -/
theorem sod_trace_invariant_cex :
    ¬ (∀ s ∈ sodDestTrace digestLen hash1 w0,
        destObservationOk digestLen hash1 s = true) := by
  decide

/-- C1 (amended): the fetch writes the destination file in place — there is
no staging path and no rename — so mid-call the destination is observable
partially written, and a GET that fails after `File::create` (non-2xx
status or transport interruption) propagates its error leaving the bytes it
already wrote at the destination, with no cleanup; what does hold: whenever
`sha256_or_download` returns success, the destination holds content whose
digest renders to the expected hash (and a completed fetch whose rehash
mismatches is removed — C4). -/
theorem sha256_or_download_post_state (digest : Content → List Nat)
    (url path h : String) (w : World) :
    ((sha256_or_download digest url path h w).result = .ok () →
      ∃ c, (sha256_or_download digest url path h w).world.dest = some c ∧
        bytesToHex (digest c) = h) ∧
    (w.dest = none → ∀ L e, w.netLen = some L → w.getErr = some e →
      (sha256_or_download digest url path h w).result = .error e ∧
      (sha256_or_download digest url path h w).world.dest = some w.getWritten) := by
  constructor
  · cases hw : w.dest with
    | none =>
      rw [sha256_or_download_absent digest url path h w hw]
      exact downloadAndVerify_ok_matches digest url path h w
    | some c =>
      by_cases hb : bytesToHex (digest c) = h
      · rw [sha256_or_download_cached_ok digest url path h w c hw hb]
        exact fun _ => ⟨c, hw, hb⟩
      · rw [sha256_or_download_cached_mismatch digest url path h w c hw hb]
        exact downloadAndVerify_ok_matches digest url path h _
  · intro hd L e hL hE
    rw [sha256_or_download_absent digest url path h w hd,
      downloadAndVerify_getFail digest url path h w L e hL hE]
    exact ⟨rfl, rfl⟩

/-- A world with an absent destination where the GET fails mid-transfer
after writing one byte. -/
def wFail : World :=
  { w0 with getErr := some "transport interrupted", getWritten := [0] }

/-- Witness for C1 (amended): a successful concrete run ends with the
destination holding correctly-hashing content; a failed GET leaves its
partially-written byte at the destination and surfaces the error. -/
theorem sha256_or_download_post_state_witness :
    (∃ c, (sha256_or_download digestLen "u" "p" hash1 w0).world.dest = some c ∧
      bytesToHex (digestLen c) = hash1) ∧
    ((sha256_or_download digestLen "u" "p" hash1 wFail).result
        = .error "transport interrupted" ∧
      (sha256_or_download digestLen "u" "p" hash1 wFail).world.dest = some [0]) :=
  ⟨(sha256_or_download_post_state digestLen "u" "p" hash1 w0).1 rfl,
   (sha256_or_download_post_state digestLen "u" "p" hash1 wFail).2 rfl 1
      "transport interrupted" rfl rfl⟩

/-- A digest stand-in whose rendering is `"abab…ab"` for every content. -/
def digestAB : Content → List Nat := fun _ => List.replicate 32 171

/-- The uppercase spelling of the 64-character rendering of `digestAB`. -/
def hashUpper : String :=
  "ABABABABABABABABABABABABABABABABABABABABABABABABABABABABABABABAB"

/-- A world with a cached file and a live zero-length server. -/
def wB : World :=
  { dest := some [], netBody := [], netLen := some 0, getErr := none
    getWritten := [], headCount := 0, fetchCount := 0, synced := false
    warnings := [], errors := [] }

/-- ASCII lowercasing of one character. -/
def lowerChar (ch : Char) : Char :=
  if 65 ≤ ch.toNat ∧ ch.toNat ≤ 90 then Char.ofNat (ch.toNat + 32) else ch

/-- C5 counterexample: the expected hash differs from the cached file's
computed digest only in the case of its hex letters, yet the comparison does
not succeed: instead of the claimed immediate zero-fetch success, the call
deletes the file, fetches once and fails. -/
theorem hash_compare_case_cex :
    hashUpper.data.map lowerChar = (bytesToHex (digestAB [])).data ∧
    hashUpper ≠ bytesToHex (digestAB []) ∧
    (sha256_or_download digestAB "u" "p" hashUpper wB).result ≠ .ok () ∧
    (sha256_or_download digestAB "u" "p" hashUpper wB).world.fetchCount = 1 := by
  decide

/-- C5 (amended): computed digests are always rendered as lowercase hex, but
the comparison is exact string equality — not case-insensitive — and the
expected hash is reported verbatim, not canonicalized: an expected hash
containing any character outside lowercase hex (such as an uppercase hex
letter) can never compare equal, so a cached file is treated as mismatched
and the warning is logged. -/
theorem hash_compare_exact (digest : Content → List Nat)
    (url path h : String) (w : World) (c : Content)
    (hc : w.dest = some c)
    (hup : ∃ ch ∈ h.data, ch ∉ hexChars) :
    (∀ ch ∈ (bytesToHex (digest c)).data, ch ∈ hexChars) ∧
    bytesToHex (digest c) ≠ h ∧
    (sha256_or_download digest url path h w).world.warnings =
      w.warnings ++ [previousFileWarning path (bytesToHex (digest c)) h] := by
  obtain ⟨ch, hch, hnot⟩ := hup
  have hne : bytesToHex (digest c) ≠ h := by
    intro he
    exact hnot (bytesToHex_data_mem (digest c) ch (he ▸ hch))
  refine ⟨bytesToHex_data_mem (digest c), hne, ?_⟩
  rw [sha256_or_download_cached_mismatch digest url path h w c hc hne,
    downloadAndVerify_warnings]

/-- Witness for C5 (amended) at the uppercase expected hash. -/
theorem hash_compare_exact_witness :
    (∀ ch ∈ (bytesToHex (digestAB [])).data, ch ∈ hexChars) ∧
    bytesToHex (digestAB []) ≠ hashUpper ∧
    (sha256_or_download digestAB "u" "p" hashUpper wB).world.warnings =
      [] ++ [previousFileWarning "p" (bytesToHex (digestAB [])) hashUpper] :=
  hash_compare_exact digestAB "u" "p" hashUpper wB [] rfl
    ⟨Char.ofNat 65, by decide, by decide⟩

/-- C6 counterexample: with the empty expected hash — which is not 64
characters — no fail-fast happens: starting from a cached file and a live
server the call hashes and deletes the file, performs a network fetch, and
only then fails; file and network I/O the claim rules out all occur. -/
theorem short_hash_no_fail_fast_cex :
    ("" : String).length ≠ 64 ∧
    (sha256_or_download digestLen "u" "p" "" { w0 with dest := some [5] }).result
        ≠ .ok () ∧
    (sha256_or_download digestLen "u" "p" ""
        { w0 with dest := some [5] }).world.fetchCount = 1 ∧
    (sha256_or_download digestLen "u" "p" ""
        { w0 with dest := some [5] }).world.dest = none ∧
    (sha256_or_download digestLen "u" "p" ""
        { w0 with dest := some [5] }).world.warnings ≠ [] := by
  decide

/-- C6 (amended): `sha256_or_download` performs no validation of the
expected hash: a hash whose length is not 64 is not rejected up front — it
simply can never equal a computed digest (always 64 characters), so the call
never succeeds, and whenever the server answers the length probe it goes all
the way through a body fetch before failing. -/
theorem short_hash_never_matches (digest : Content → List Nat)
    (h32 : ∀ c, (digest c).length = 32)
    (url path h : String) (hlen : h.length ≠ 64) (w : World) :
    (sha256_or_download digest url path h w).result ≠ .ok () ∧
    (∀ L, w.netLen = some L →
      (sha256_or_download digest url path h w).world.fetchCount
        = w.fetchCount + 1) := by
  have hnever : ∀ c, bytesToHex (digest c) ≠ h := by
    intro c he
    apply hlen
    rw [← he, bytesToHex_length, h32]
  cases hw : w.dest with
  | none =>
    rw [sha256_or_download_absent digest url path h w hw]
    exact downloadAndVerify_never_match digest url path h w (hnever _)
  | some c =>
    rw [sha256_or_download_cached_mismatch digest url path h w c hw (hnever c)]
    exact downloadAndVerify_never_match digest url path h _ (hnever _)

/-- Witness for C6 (amended): the empty expected hash against a cached file
and a live server: the call fails and still fetches once. -/
theorem short_hash_never_matches_witness :
    (sha256_or_download digestLen "u" "p" "" { w0 with dest := some [5] }).result
        ≠ .ok () ∧
    (sha256_or_download digestLen "u" "p" ""
        { w0 with dest := some [5] }).world.fetchCount = 0 + 1 :=
  ⟨(short_hash_never_matches digestLen (fun c => rfl) "u" "p" "" (by decide)
      { w0 with dest := some [5] }).1,
   (short_hash_never_matches digestLen (fun c => rfl) "u" "p" "" (by decide)
      { w0 with dest := some [5] }).2 1 rfl⟩

/-- C8: manifest line parsing: on every line the slicing can process, the
parsed digest consists of exactly the bytes at offsets `[0, 64)` of the line
and the parsed filename of exactly the bytes from offset `66` to the end of
the line. -/
theorem parseLine_offsets (ln : List Char) (h : 66 ≤ ln.length) :
    ∃ d n, parseLine ln = .ok (d, n) ∧
      d.length = 64 ∧
      (∀ i, i < 64 → d[i]? = ln[i]?) ∧
      n.length = ln.length - 66 ∧
      (∀ i, n[i]? = ln[66 + i]?) := by
  have h64 : 64 ≤ ln.length := by omega
  refine ⟨ln.take 64, ln.drop 66, ?_, ?_, ?_, ?_, ?_⟩
  · simp [parseLine, h64, h]
  · simp [List.length_take]
    omega
  · intro i hi
    rw [List.getElem?_take, if_pos hi]
  · simp [List.length_drop]
  · intro i
    exact List.getElem?_drop ..

/-- Witness for C8 on the spec's example line. -/
theorem parseLine_offsets_witness :
    ∃ d n,
      parseLine
          (List.replicate 64 (Char.ofNat 97) ++ "  ".data
            ++ "redox_demo_x86_64_2024-01-01_harddrive.img.zst".data)
        = .ok (d, n) ∧
      d.length = 64 ∧
      (∀ i, i < 64 →
        d[i]? = (List.replicate 64 (Char.ofNat 97) ++ "  ".data
          ++ "redox_demo_x86_64_2024-01-01_harddrive.img.zst".data)[i]?) ∧
      n.length = (List.replicate 64 (Char.ofNat 97) ++ "  ".data
        ++ "redox_demo_x86_64_2024-01-01_harddrive.img.zst".data).length - 66 ∧
      (∀ i, n[i]? = (List.replicate 64 (Char.ofNat 97) ++ "  ".data
        ++ "redox_demo_x86_64_2024-01-01_harddrive.img.zst".data)[66 + i]?) :=
  parseLine_offsets _ (by decide)

/-- C9 counterexample: a manifest whose only line is empty — certainly not a
matching filename — is not ignored: the fixed-offset slicing panics and the
scan aborts instead of reporting that no image was found. -/
theorem scan_short_line_cex :
    parseLine [] = .error "byte index 64 is out of bounds" ∧
    selectDemoImage [[]] = .panicked "byte index 64 is out of bounds" ∧
    selectDemoImage [[]] ≠ .failed "demo harddrive image not found" := by
  decide

/-- C9 (amended): scanning is total only over lines of at least 66 bytes: a
long-enough line whose filename field does not match the pattern is skipped
without any effect, but a line shorter than 64 bytes (resp. of 64 or 65
bytes) makes the slice at offset 64 (resp. 66) panic, aborting the scan. -/
theorem scanManifest_skip_or_panic (line : List Char)
    (rest : List (List Char)) (acc : Option (List Char × List Char)) :
    (66 ≤ line.length → demoImageName (line.drop 66) = false →
      scanManifest (line :: rest) acc = scanManifest rest acc) ∧
    (line.length < 64 →
      scanManifest (line :: rest) acc
        = .error "byte index 64 is out of bounds") ∧
    (64 ≤ line.length → line.length < 66 →
      scanManifest (line :: rest) acc
        = .error "byte index 66 is out of bounds") := by
  refine ⟨?_, ?_, ?_⟩
  · intro h66 hnm
    have h64 : 64 ≤ line.length := by omega
    simp [scanManifest, parseLine, h64, h66, hnm]
  · intro hlt
    have h64 : ¬ 64 ≤ line.length := by omega
    simp [scanManifest, parseLine, h64]
  · intro h64 hlt
    have h66 : ¬ 66 ≤ line.length := by omega
    simp [scanManifest, parseLine, h64, h66]

/-- Witness for C9 (amended): a 70-byte non-matching line is skipped without
effect; an empty line and a 65-byte line panic at offsets 64 and 66. -/
theorem scanManifest_skip_or_panic_witness :
    scanManifest [List.replicate 70 (Char.ofNat 97)] none = scanManifest [] none ∧
    scanManifest [[]] none = .error "byte index 64 is out of bounds" ∧
    scanManifest [List.replicate 65 (Char.ofNat 97)] none
      = .error "byte index 66 is out of bounds" :=
  ⟨(scanManifest_skip_or_panic (List.replicate 70 (Char.ofNat 97)) [] none).1
      (by decide) (by decide),
   (scanManifest_skip_or_panic [] [] none).2.1 (by decide),
   (scanManifest_skip_or_panic (List.replicate 65 (Char.ofNat 97)) [] none).2.2
      (by decide) (by decide)⟩

/-- What the overwrite-style accumulation amounts to: the last line of the
manifest whose filename field matches the pattern (if any), parsed at the
fixed offsets; otherwise the incoming accumulator. -/
def lastMatchSelection (lines : List (List Char))
    (acc : Option (List Char × List Char)) : Option (List Char × List Char) :=
  match (lines.filter fun l => demoImageName (l.drop 66)).getLast? with
  | some m => some (m.drop 66, m.take 64)
  | none => acc

theorem getLast?_cons_some {α : Type} (x : α) (xs : List α) :
    ∃ m, (x :: xs).getLast? = some m := by
  induction xs generalizing x with
  | nil => exact ⟨x, rfl⟩
  | cons y ys ih =>
    rw [List.getLast?_cons_cons]
    exact ih y

theorem scanManifest_wellformed (lines : List (List Char)) :
    ∀ acc, (∀ l ∈ lines, 66 ≤ l.length) →
      scanManifest lines acc = .ok (lastMatchSelection lines acc) := by
  induction lines with
  | nil => intro acc _; rfl
  | cons l rest ih =>
    intro acc hw
    have h66 : 66 ≤ l.length := hw l (List.mem_cons_self _ _)
    have h64 : 64 ≤ l.length := by omega
    have hrest : ∀ x ∈ rest, 66 ≤ x.length :=
      fun x hx => hw x (List.mem_cons_of_mem _ hx)
    have hstep : scanManifest (l :: rest) acc
        = scanManifest rest
            (if demoImageName (l.drop 66) then some (l.drop 66, l.take 64)
             else acc) := by
      simp [scanManifest, parseLine, h64, h66]
    rw [hstep, ih _ hrest]
    congr 1
    by_cases hd : demoImageName (l.drop 66) = true
    · rw [if_pos hd]
      simp only [lastMatchSelection, List.filter_cons, hd, if_true]
      cases hfc : rest.filter fun x => demoImageName (x.drop 66) with
      | nil => rfl
      | cons x xs =>
        obtain ⟨m, hm⟩ := getLast?_cons_some x xs
        rw [List.getLast?_cons_cons, hm]
    · rw [if_neg hd]
      simp only [lastMatchSelection, List.filter_cons, if_neg hd]

/-- C10: for a manifest whose lines are all at least 66 bytes: when at least
one line's filename matches the demo-image pattern, the last such line
determines the selected name (offset 66 onward) and digest (first 64 bytes),
because every later match overwrites the accumulator; when none matches, the
lookup fails with the `demo harddrive image not found` error. -/
theorem selectDemoImage_last_match (lines : List (List Char))
    (hw : ∀ l ∈ lines, 66 ≤ l.length) :
    selectDemoImage lines =
      match (lines.filter fun l => demoImageName (l.drop 66)).getLast? with
      | some m => .found (m.drop 66) (m.take 64)
      | none => .failed "demo harddrive image not found" := by
  unfold selectDemoImage
  rw [scanManifest_wellformed lines none hw]
  unfold lastMatchSelection
  cases (lines.filter fun l => demoImageName (l.drop 66)).getLast? <;> rfl

/-- A concrete matching manifest line: a 64-byte digest field, the
two-character separator, and a matching demo image name. -/
def mline1 : List Char :=
  List.replicate 64 (Char.ofNat 97) ++ "  ".data
    ++ "redox_demo_x86_64_2024-01-01_harddrive.img.zst".data

/-- A second matching line with a different digest and date. -/
def mline2 : List Char :=
  List.replicate 64 (Char.ofNat 98) ++ "  ".data
    ++ "redox_demo_x86_64_2024-02-02_harddrive.img.zst".data

/-- A long-enough line whose filename field does not match. -/
def junkLine : List Char := List.replicate 80 (Char.ofNat 97)

/-- Witness for C10: with two matching lines the later one wins; with only
non-matching lines the lookup reports the image as not found. -/
theorem selectDemoImage_last_match_witness :
    selectDemoImage [mline1, junkLine, mline2]
      = .found "redox_demo_x86_64_2024-02-02_harddrive.img.zst".data
          (List.replicate 64 (Char.ofNat 98)) ∧
    selectDemoImage [junkLine] = .failed "demo harddrive image not found" := by
  constructor
  · rw [selectDemoImage_last_match [mline1, junkLine, mline2] (by decide)]
    decide
  · rw [selectDemoImage_last_match [junkLine] (by decide)]
    decide
